import Mathlib

/-!
Shallow embedding of the sanctuary-sprint simulation loop (src/app/page.tsx).

Numbers are modelled as rationals. The three transcendental inputs of a tick
— the raw frame delta `(now - last) / 1000`, the ambient drift factor
`sin(now * 0.0012)`, and the damping factor `0.08 ^ dt` — together with the
value of `Math.random()` used by a potential wave spawn, are passed in as
explicit tick inputs, so a tick is a pure function of state and inputs.
Persistence (localStorage) is modelled explicitly where a claim needs it.
-/

namespace SanctuarySprint

/-- The clamp helper of page.tsx: `Math.max(a, Math.min(b, n))`. -/
def clamp (n a b : ℚ) : ℚ := max a (min b n)

/-- Session state machine of the UI: READY, LIVE, DOWN. -/
inductive Status where
  | READY
  | LIVE
  | DOWN
deriving DecidableEq, Repr

/-- A gap barrier: `{ id, y, gapX, gapW, speed }`. -/
structure Wave where
  id : ℕ
  y : ℚ
  gapX : ℚ
  gapW : ℚ
  speed : ℚ
deriving DecidableEq, Repr

/-- The simulation state: the refs of the component plus the status of the
session controller. Presentation-only fields (message text, session seconds,
intensity) are not part of the model. -/
structure SimState where
  px : ℚ
  vel : ℚ
  dash : ℚ
  charge : ℚ
  alive : Bool
  waves : List Wave
  waveId : ℕ
  score : ℚ
  best : ℚ
  streak : ℕ
  hits : ℕ
  nearMiss : ℕ
  holding : Bool
  status : Status
deriving DecidableEq, Repr

/-- Per-tick environment inputs: `rawDt = (now - last)/1000`,
`sinNow = sin(now*0.0012)`, `damp = 0.08 ^ dt`, `rand = Math.random()`. -/
structure TickInput where
  rawDt : ℚ
  sinNow : ℚ
  damp : ℚ
  rand : ℚ
deriving DecidableEq, Repr

/-- The `reset` function: restores the player, clears the field, zeroes the
scores, sets status LIVE; `best` and `holding` are untouched. -/
def reset (s : SimState) : SimState :=
  { s with px := 0.5, vel := 0, dash := 0, charge := 0, alive := true,
           waves := [], waveId := 1,
           score := 0, streak := 0, hits := 0, nearMiss := 0,
           status := Status.LIVE }

/-- The `spawnWave` function, with the `Math.random()` draw passed as `r`. -/
def spawnWave (s : SimState) (r : ℚ) : SimState :=
  { s with
      waves := s.waves ++
        [{ id := s.waveId,
           y := 1.15,
           gapX := clamp (0.15 + r * 0.70) 0.1 0.9,
           gapW := clamp (0.26 - s.score * 0.0006) 0.12 0.26,
           speed := clamp (0.35 + s.score * 0.00015) 0.35 1.15 }],
      waveId := s.waveId + 1 }

/-- The `onHoldStart` handler: resets from READY or DOWN, then holds. -/
def onHoldStart (s : SimState) : SimState :=
  let s1 := if s.status = Status.READY ∨ s.status = Status.DOWN then reset s else s
  { s1 with holding := true }

/-- The `onHoldEnd` handler: stops holding, converts charge to a dash impulse
while alive, and drains charge unconditionally. -/
def onHoldEnd (s : SimState) : SimState :=
  let s1 := { s with holding := false }
  let s2 :=
    if s1.alive then
      { s1 with dash := clamp (s1.dash + (0.35 + s1.charge * 1.2)) 0 1.6 }
    else s1
  { s2 with charge := 0 }

/-- The physics part of a tick: charge, ambient drift, dash application and
decay, velocity damping, clamped position integration. -/
def tickPhysics (s : SimState) (inp : TickInput) : SimState :=
  let dt := min 0.033 inp.rawDt
  let charge :=
    if s.holding then clamp (s.charge + dt * 0.85) 0 1
    else clamp (s.charge - dt * 1.3) 0 1
  let vel0 := s.vel + (inp.sinNow * 0.02) * dt
  let vd : ℚ × ℚ :=
    if 0 < s.dash then
      (vel0 + (s.dash * (if s.holding then 0.25 else 1)) * dt * 1.8,
       clamp (s.dash - dt * 1.6) 0 2)
    else (vel0, s.dash)
  let vel := vd.1 * inp.damp
  { s with charge := charge, vel := vel, dash := vd.2,
           px := clamp (s.px + vel) 0.06 0.94 }

/-- The second spawn statement of a tick: spawn when the most recent wave
has passed `y < 0.65`. -/
def tickSpawnB (s1 : SimState) (r : ℚ) : SimState :=
  match s1.waves.getLast? with
  | some w => if w.y < 0.65 then spawnWave s1 r else s1
  | none => s1

/-- The spawn policy of a tick: spawn when the field is empty, then spawn
when the most recent wave has passed `y < 0.65`. -/
def tickSpawn (s : SimState) (r : ℚ) : SimState :=
  tickSpawnB (if s.waves = [] then spawnWave s r else s) r

/-- One wave advance step: `w.y -= dt * w.speed`. -/
def moveWave (dt : ℚ) (w : Wave) : Wave := { w with y := w.y - dt * w.speed }

/-- Advance every wave of the field. -/
def tickMove (dt : ℚ) (s : SimState) : SimState :=
  { s with waves := s.waves.map (moveWave dt) }

/-- The edge-triggered crossing test, on the already advanced wave:
`w.y <= 0.22 && w.y > 0.22 - dt * w.speed`. -/
def crossing (dt : ℚ) (w : Wave) : Bool :=
  decide (w.y ≤ 0.22 ∧ 0.22 - dt * w.speed < w.y)

/-- Left edge of the gap. -/
def gapLeft (w : Wave) : ℚ := w.gapX - w.gapW / 2

/-- Right edge of the gap. -/
def gapRight (w : Wave) : ℚ := w.gapX + w.gapW / 2

/-- Inclusive gap membership test of the collision branch. -/
def insideGap (px : ℚ) (w : Wave) : Bool :=
  decide (gapLeft w ≤ px ∧ px ≤ gapRight w)

/-- The HIT branch: hit and streak counters, near-miss bonus, base score. -/
def hitUpdate (s : SimState) (w : Wave) : SimState :=
  let s1 := { s with hits := s.hits + 1, streak := s.streak + 1 }
  let edgeDist := min (s1.px - gapLeft w) (gapRight w - s1.px)
  let s2 :=
    if edgeDist < 0.03 then
      { s1 with nearMiss := s1.nearMiss + 1, score := s1.score + 9 }
    else s1
  { s2 with score := s2.score + (18 + ((⌊(s2.streak : ℚ) * 0.9⌋ : ℤ) : ℚ)) }

/-- Collision resolution of one wave, exactly as the loop body of the code:
every crossing MISS assigns `alive := false` and `status := DOWN`. -/
def resolveWave (dt : ℚ) (s : SimState) (w : Wave) : SimState :=
  if crossing dt w then
    if insideGap s.px w then hitUpdate s w
    else { s with alive := false, status := Status.DOWN }
  else s

/-- The collision loop: fold the resolution over the advanced field. -/
def tickResolve (dt : ℚ) (s : SimState) : SimState :=
  s.waves.foldl (resolveWave dt) s

/-- Pruning: keep waves with `y > -0.2`. -/
def tickPrune (s : SimState) : SimState :=
  { s with waves := s.waves.filter (fun w => decide ((-0.2 : ℚ) < w.y)) }

/-- Best update: raise `best` when the score exceeds it; the second component
is the persistence request issued to storage (`some v` = setItem of v). -/
def tickBest (s : SimState) : SimState × Option ℚ :=
  if s.best < s.score then ({ s with best := s.score }, some s.score)
  else (s, none)

/-- The state after physics, spawning and advancing, just before the
collision loop of a LIVE tick runs. -/
def tickField (s : SimState) (inp : TickInput) : SimState :=
  tickMove (min 0.033 inp.rawDt) (tickSpawn (tickPhysics s inp) inp.rand)

/-- One full tick: a no-op unless the session is LIVE; otherwise physics,
spawn, advance, collide, prune, best update. The second component is the
persistence request of the best update. -/
def tickCore (s : SimState) (inp : TickInput) : SimState × Option ℚ :=
  if s.status = Status.LIVE then
    tickBest (tickPrune (tickResolve (min 0.033 inp.rawDt) (tickField s inp)))
  else (s, none)

/-- The simulation-state part of a tick. -/
def tick (s : SimState) (inp : TickInput) : SimState := (tickCore s inp).1

/-- A tick together with the storage outcome: the setItem call sits inside a
try/catch, so a failing write (`writeOk = false`) changes nothing in memory;
the second component reports what actually became durable. -/
def tickWithPersist (s : SimState) (inp : TickInput) (writeOk : Bool) :
    SimState × Option ℚ :=
  let c := tickCore s inp
  (c.1,
   match c.2 with
   | some v => if writeOk then some v else none
   | none => none)

/-- What the initial load finds in storage: the key can be unreadable
(localStorage throws), absent (`getItem` returns null, parsed as "0"),
present but parsing to a non-finite number, or present and finite. -/
inductive StoredBest where
  | unavailable
  | missing
  | nonFinite
  | finiteVal (q : ℚ)
deriving DecidableEq, Repr

/-- The initial best load: `Number(getItem ?? "0")` guarded by
`isFinite` inside a try/catch; every failure path yields 0. -/
def loadBest : StoredBest → ℚ
  | StoredBest.finiteVal q => q
  | _ => 0

/-- The state at mount time: the initial values of the refs, with `best`
loaded from storage and the session in READY. -/
def initState (st : StoredBest) : SimState :=
  { px := 0.5, vel := 0, dash := 0, charge := 0, alive := true,
    waves := [], waveId := 1, score := 0, best := loadBest st,
    streak := 0, hits := 0, nearMiss := 0, holding := false,
    status := Status.READY }

/-- Reachability: the mount state under any storage content, closed under
ticks with a nonnegative raw delta (animation-frame timestamps are
monotone) and under the two input handlers. -/
inductive Reachable : SimState → Prop where
  | init (st : StoredBest) : Reachable (initState st)
  | stepTick {s : SimState} (inp : TickInput) (hdt : 0 ≤ inp.rawDt) :
      Reachable s → Reachable (tick s inp)
  | stepHoldStart {s : SimState} : Reachable s → Reachable (onHoldStart s)
  | stepHoldEnd {s : SimState} : Reachable s → Reachable (onHoldEnd s)

/-- The clamped ranges of one wave: gap width and speed. -/
def WaveOk (w : Wave) : Prop :=
  0.12 ≤ w.gapW ∧ w.gapW ≤ 0.26 ∧ 0.35 ≤ w.speed ∧ w.speed ≤ 1.15

instance (w : Wave) : Decidable (WaveOk w) := by
  unfold WaveOk; infer_instance

/-- The clamping invariant of the spec: position, charge, dash, and every
wave of the field stay inside their declared ranges. -/
def Inv (s : SimState) : Prop :=
  0.06 ≤ s.px ∧ s.px ≤ 0.94 ∧
  0 ≤ s.charge ∧ s.charge ≤ 1 ∧
  0 ≤ s.dash ∧ s.dash ≤ 2 ∧
  ∀ w ∈ s.waves, WaveOk w

instance (s : SimState) : Decidable (Inv s) := by
  unfold Inv; infer_instance

/-- Collision resolution as the spec words step 5 of the wave field: detect
and resolve at most one terminal MISS per tick batch, first found; once the
session is already DOWN a further MISS of the same batch is ignored. Stated
for comparison with `resolveWave`, the loop body of the code. -/
def resolveWaveFirstMiss (dt : ℚ) (s : SimState) (w : Wave) : SimState :=
  if crossing dt w then
    if insideGap s.px w then hitUpdate s w
    else if s.status = Status.DOWN then s
    else { s with alive := false, status := Status.DOWN }
  else s

/-- The tick of the spec wording: identical to `tick` except that the
collision loop resolves at most the first terminal MISS of the batch. -/
def tickFirstMiss (s : SimState) (inp : TickInput) : SimState :=
  if s.status = Status.LIVE then
    (tickBest (tickPrune
      ((tickField s inp).waves.foldl (resolveWaveFirstMiss (min 0.033 inp.rawDt))
        (tickField s inp)))).1
  else s

/-- The position of one wave after a sequence of per-tick advances. -/
def waveAfter (w : Wave) (dts : List ℚ) : Wave :=
  dts.foldl (fun a d => moveWave d a) w

/-- Whether the crossing check of the code fires for wave `w` at the tick
with delta `d`, after the earlier ticks `dts` already advanced it. -/
def crossesOn (w : Wave) (dts : List ℚ) (d : ℚ) : Bool :=
  crossing d (moveWave d (waveAfter w dts))

/-- A concrete LIVE state whose single wave will cross inside the gap close
to the left edge on the next tick. -/
def demoHit : SimState :=
  { px := 0.41, vel := 0, dash := 0, charge := 0, alive := true,
    waves := [{ id := 1, y := 0.225, gapX := 0.5, gapW := 0.2, speed := 1 }],
    waveId := 2, score := 0, best := 0, streak := 0, hits := 0, nearMiss := 0,
    holding := false, status := Status.LIVE }

/-- A concrete LIVE state whose single wave will cross outside the gap on
the next tick. -/
def demoMiss : SimState :=
  { px := 0.5, vel := 0, dash := 0, charge := 0, alive := true,
    waves := [{ id := 1, y := 0.225, gapX := 0.9, gapW := 0.1, speed := 1 }],
    waveId := 2, score := 0, best := 0, streak := 0, hits := 0, nearMiss := 0,
    holding := false, status := Status.LIVE }

/-- A concrete LIVE state with no charge and no dash, not holding. -/
def demoIdle : SimState :=
  { px := 0.5, vel := 0, dash := 0, charge := 0, alive := true,
    waves := [], waveId := 1, score := 0, best := 0, streak := 0, hits := 0,
    nearMiss := 0, holding := false, status := Status.LIVE }

/-- A concrete tick input: 10 ms frame, zero drift, unit damping factor,
random draw one half. -/
def demoInput : TickInput := { rawDt := 0.01, sinNow := 0, damp := 1, rand := 0.5 }

/-- A concrete wave just above the player band. -/
def demoWave : Wave := { id := 1, y := 0.25, gapX := 0.5, gapW := 0.2, speed := 1 }

theorem le_clamp (n a b : ℚ) : a ≤ clamp n a b := le_max_left a (min b n)

theorem clamp_le (n : ℚ) {a b : ℚ} (h : a ≤ b) : clamp n a b ≤ b :=
  max_le h (min_le_left b n)

theorem clamp_le_right {n a b c : ℚ} (hn : n ≤ c) (ha : a ≤ c) : clamp n a b ≤ c :=
  max_le ha (le_trans (min_le_right b n) hn)

theorem tickPhysics_px (s : SimState) (inp : TickInput) :
    0.06 ≤ (tickPhysics s inp).px ∧ (tickPhysics s inp).px ≤ 0.94 :=
  ⟨le_clamp _ _ _, clamp_le _ (by norm_num)⟩

theorem tickPhysics_charge (s : SimState) (inp : TickInput) :
    0 ≤ (tickPhysics s inp).charge ∧ (tickPhysics s inp).charge ≤ 1 := by
  unfold tickPhysics
  dsimp only
  split_ifs <;> exact ⟨le_clamp _ _ _, clamp_le _ (by norm_num)⟩

theorem tickPhysics_dash_eq (s : SimState) (inp : TickInput) :
    (tickPhysics s inp).dash =
      if 0 < s.dash then clamp (s.dash - min 0.033 inp.rawDt * 1.6) 0 2
      else s.dash := by
  unfold tickPhysics
  by_cases h : 0 < s.dash <;> simp [h]

theorem tickPhysics_dash (s : SimState) (inp : TickInput)
    (h0 : 0 ≤ s.dash) (h2 : s.dash ≤ 2) :
    0 ≤ (tickPhysics s inp).dash ∧ (tickPhysics s inp).dash ≤ 2 := by
  rw [tickPhysics_dash_eq]
  split_ifs with h
  · exact ⟨le_clamp _ _ _, clamp_le _ (by norm_num)⟩
  · exact ⟨h0, h2⟩

theorem tickPhysics_dash_cap (s : SimState) (inp : TickInput)
    (hdt : 0 ≤ inp.rawDt) (h0 : 0 ≤ s.dash) (h16 : s.dash ≤ 1.6) :
    0 ≤ (tickPhysics s inp).dash ∧ (tickPhysics s inp).dash ≤ 1.6 := by
  have hdt2 : 0 ≤ min (0.033 : ℚ) inp.rawDt := le_min (by norm_num) hdt
  have hmul : 0 ≤ min (0.033 : ℚ) inp.rawDt * 1.6 := by positivity
  rw [tickPhysics_dash_eq]
  split_ifs with h
  · refine ⟨le_clamp _ _ _, clamp_le_right ?_ (by norm_num)⟩
    linarith
  · exact ⟨h0, h16⟩

theorem tickPhysics_frame (s : SimState) (inp : TickInput) :
    (tickPhysics s inp).waves = s.waves ∧ (tickPhysics s inp).status = s.status ∧
    (tickPhysics s inp).best = s.best ∧ (tickPhysics s inp).score = s.score ∧
    (tickPhysics s inp).alive = s.alive :=
  ⟨rfl, rfl, rfl, rfl, rfl⟩

theorem spawnWave_frame (s : SimState) (r : ℚ) :
    (spawnWave s r).px = s.px ∧ (spawnWave s r).charge = s.charge ∧
    (spawnWave s r).dash = s.dash ∧ (spawnWave s r).status = s.status ∧
    (spawnWave s r).best = s.best ∧ (spawnWave s r).score = s.score ∧
    (spawnWave s r).alive = s.alive :=
  ⟨rfl, rfl, rfl, rfl, rfl, rfl, rfl⟩

theorem spawnWave_mem {s : SimState} {r : ℚ} {w : Wave}
    (hw : w ∈ (spawnWave s r).waves) : w ∈ s.waves ∨ WaveOk w := by
  unfold spawnWave at hw
  simp only [List.mem_append, List.mem_singleton] at hw
  rcases hw with hw | rfl
  · exact Or.inl hw
  · exact Or.inr ⟨le_clamp _ _ _, clamp_le _ (by norm_num),
      le_clamp _ _ _, clamp_le _ (by norm_num)⟩

theorem tickSpawnB_cases (s : SimState) (r : ℚ) :
    tickSpawnB s r = s ∨ tickSpawnB s r = spawnWave s r := by
  unfold tickSpawnB
  cases h : s.waves.getLast? with
  | none => simp [h]
  | some w => by_cases hy : w.y < (0.65 : ℚ) <;> simp [h, hy]

theorem tickSpawn_cases (s : SimState) (r : ℚ) :
    tickSpawn s r = s ∨ tickSpawn s r = spawnWave s r ∨
    tickSpawn s r = spawnWave (spawnWave s r) r := by
  unfold tickSpawn
  by_cases he : s.waves = []
  · rw [if_pos he]
    rcases tickSpawnB_cases (spawnWave s r) r with h | h
    · exact Or.inr (Or.inl h)
    · exact Or.inr (Or.inr h)
  · rw [if_neg he]
    rcases tickSpawnB_cases s r with h | h
    · exact Or.inl h
    · exact Or.inr (Or.inl h)

theorem tickSpawn_frame (s : SimState) (r : ℚ) :
    (tickSpawn s r).px = s.px ∧ (tickSpawn s r).charge = s.charge ∧
    (tickSpawn s r).dash = s.dash ∧ (tickSpawn s r).status = s.status ∧
    (tickSpawn s r).best = s.best ∧ (tickSpawn s r).score = s.score ∧
    (tickSpawn s r).alive = s.alive := by
  rcases tickSpawn_cases s r with h | h | h <;> rw [h] <;>
    exact ⟨rfl, rfl, rfl, rfl, rfl, rfl, rfl⟩

theorem tickSpawn_mem {s : SimState} {r : ℚ} {w : Wave}
    (hw : w ∈ (tickSpawn s r).waves) : w ∈ s.waves ∨ WaveOk w := by
  rcases tickSpawn_cases s r with h | h | h <;> rw [h] at hw
  · exact Or.inl hw
  · exact spawnWave_mem hw
  · rcases spawnWave_mem hw with h2 | h2
    · exact spawnWave_mem h2
    · exact Or.inr h2

theorem moveWave_waveOk {dt : ℚ} {w : Wave} (h : WaveOk w) : WaveOk (moveWave dt w) := h

theorem tickMove_frame (dt : ℚ) (s : SimState) :
    (tickMove dt s).px = s.px ∧ (tickMove dt s).charge = s.charge ∧
    (tickMove dt s).dash = s.dash ∧ (tickMove dt s).status = s.status ∧
    (tickMove dt s).best = s.best ∧ (tickMove dt s).score = s.score ∧
    (tickMove dt s).alive = s.alive :=
  ⟨rfl, rfl, rfl, rfl, rfl, rfl, rfl⟩

theorem tickMove_mem {dt : ℚ} {s : SimState} {w : Wave}
    (hw : w ∈ (tickMove dt s).waves) : ∃ v ∈ s.waves, w = moveWave dt v := by
  unfold tickMove at hw
  simp only [List.mem_map] at hw
  rcases hw with ⟨v, hv, rfl⟩
  exact ⟨v, hv, rfl⟩

theorem resolveWave_frame (dt : ℚ) (s : SimState) (w : Wave) :
    (resolveWave dt s w).px = s.px ∧ (resolveWave dt s w).vel = s.vel ∧
    (resolveWave dt s w).dash = s.dash ∧ (resolveWave dt s w).charge = s.charge ∧
    (resolveWave dt s w).waves = s.waves ∧ (resolveWave dt s w).waveId = s.waveId ∧
    (resolveWave dt s w).best = s.best ∧ (resolveWave dt s w).holding = s.holding := by
  unfold resolveWave hitUpdate
  split_ifs <;> simp
  all_goals split_ifs <;> simp

theorem foldResolve_frame (dt : ℚ) (ws : List Wave) (s : SimState) :
    (ws.foldl (resolveWave dt) s).px = s.px ∧
    (ws.foldl (resolveWave dt) s).dash = s.dash ∧
    (ws.foldl (resolveWave dt) s).charge = s.charge ∧
    (ws.foldl (resolveWave dt) s).waves = s.waves ∧
    (ws.foldl (resolveWave dt) s).best = s.best := by
  induction ws generalizing s with
  | nil => exact ⟨rfl, rfl, rfl, rfl, rfl⟩
  | cons w ws ih =>
    have h := resolveWave_frame dt s w
    have h2 := ih (resolveWave dt s w)
    simp only [List.foldl_cons]
    exact ⟨h2.1.trans h.1, h2.2.1.trans h.2.2.1, h2.2.2.1.trans h.2.2.2.1,
      h2.2.2.2.1.trans h.2.2.2.2.1, h2.2.2.2.2.trans h.2.2.2.2.2.2.1⟩

theorem tickResolve_eq (dt : ℚ) (s : SimState) :
    tickResolve dt s = s.waves.foldl (resolveWave dt) s := rfl

theorem tickPrune_frame (s : SimState) :
    (tickPrune s).px = s.px ∧ (tickPrune s).charge = s.charge ∧
    (tickPrune s).dash = s.dash ∧ (tickPrune s).status = s.status ∧
    (tickPrune s).best = s.best ∧ (tickPrune s).score = s.score ∧
    (tickPrune s).alive = s.alive :=
  ⟨rfl, rfl, rfl, rfl, rfl, rfl, rfl⟩

theorem tickPrune_mem {s : SimState} {w : Wave}
    (hw : w ∈ (tickPrune s).waves) : w ∈ s.waves := by
  unfold tickPrune at hw
  exact List.mem_of_mem_filter hw

theorem tickBest_frame (s : SimState) :
    (tickBest s).1.px = s.px ∧ (tickBest s).1.charge = s.charge ∧
    (tickBest s).1.dash = s.dash ∧ (tickBest s).1.status = s.status ∧
    (tickBest s).1.waves = s.waves ∧ (tickBest s).1.score = s.score ∧
    (tickBest s).1.alive = s.alive := by
  unfold tickBest
  split_ifs <;> exact ⟨rfl, rfl, rfl, rfl, rfl, rfl, rfl⟩

theorem tickBest_best (s : SimState) : (tickBest s).1.best = max s.best s.score := by
  unfold tickBest
  split_ifs with h
  · simp [max_eq_right h.le]
  · simp [max_eq_left (not_lt.1 h)]

theorem tick_live (s : SimState) (inp : TickInput) (hL : s.status = Status.LIVE) :
    tick s inp =
      (tickBest (tickPrune (tickResolve (min 0.033 inp.rawDt) (tickField s inp)))).1 := by
  unfold tick tickCore
  rw [if_pos hL]

theorem tick_not_live (s : SimState) (inp : TickInput) (h : ¬s.status = Status.LIVE) :
    tick s inp = s := by
  unfold tick tickCore
  rw [if_neg h]

theorem tickField_px (s : SimState) (inp : TickInput) :
    (tickField s inp).px = (tickPhysics s inp).px := by
  unfold tickField
  rw [(tickMove_frame _ _).1, (tickSpawn_frame _ _).1]

theorem tickField_charge (s : SimState) (inp : TickInput) :
    (tickField s inp).charge = (tickPhysics s inp).charge := by
  unfold tickField
  rw [(tickMove_frame _ _).2.1, (tickSpawn_frame _ _).2.1]

theorem tickField_dash (s : SimState) (inp : TickInput) :
    (tickField s inp).dash = (tickPhysics s inp).dash := by
  unfold tickField
  rw [(tickMove_frame _ _).2.2.1, (tickSpawn_frame _ _).2.2.1]

theorem tickField_status (s : SimState) (inp : TickInput) :
    (tickField s inp).status = s.status := by
  unfold tickField
  rw [(tickMove_frame _ _).2.2.2.1, (tickSpawn_frame _ _).2.2.2.1]
  exact (tickPhysics_frame s inp).2.1

theorem tickField_best (s : SimState) (inp : TickInput) :
    (tickField s inp).best = s.best := by
  unfold tickField
  rw [(tickMove_frame _ _).2.2.2.2.1, (tickSpawn_frame _ _).2.2.2.2.1]
  exact (tickPhysics_frame s inp).2.2.1

theorem tick_px_eq (s : SimState) (inp : TickInput) (hL : s.status = Status.LIVE) :
    (tick s inp).px = (tickPhysics s inp).px := by
  rw [tick_live s inp hL, (tickBest_frame _).1, (tickPrune_frame _).1,
    tickResolve_eq, (foldResolve_frame _ _ _).1, tickField_px]

theorem tick_charge_eq (s : SimState) (inp : TickInput) (hL : s.status = Status.LIVE) :
    (tick s inp).charge = (tickPhysics s inp).charge := by
  rw [tick_live s inp hL, (tickBest_frame _).2.1, (tickPrune_frame _).2.1,
    tickResolve_eq, (foldResolve_frame _ _ _).2.2.1, tickField_charge]

theorem tick_dash_eq (s : SimState) (inp : TickInput) (hL : s.status = Status.LIVE) :
    (tick s inp).dash = (tickPhysics s inp).dash := by
  rw [tick_live s inp hL, (tickBest_frame _).2.2.1, (tickPrune_frame _).2.2.1,
    tickResolve_eq, (foldResolve_frame _ _ _).2.1, tickField_dash]

theorem tick_waves_mem {s : SimState} {inp : TickInput} {w : Wave}
    (hL : s.status = Status.LIVE) (hw : w ∈ (tick s inp).waves) :
    ∃ v, (v ∈ s.waves ∨ WaveOk v) ∧ w = moveWave (min 0.033 inp.rawDt) v := by
  rw [tick_live s inp hL, (tickBest_frame _).2.2.2.2.1] at hw
  have hw2 := tickPrune_mem hw
  rw [tickResolve_eq, (foldResolve_frame _ _ _).2.2.2.1] at hw2
  unfold tickField at hw2
  obtain ⟨v, hv, rfl⟩ := tickMove_mem hw2
  rcases tickSpawn_mem hv with h | h
  · rw [(tickPhysics_frame s inp).1] at h
    exact ⟨v, Or.inl h, rfl⟩
  · exact ⟨v, Or.inr h, rfl⟩

theorem reset_inv (s : SimState) : Inv (reset s) := by
  refine ⟨by norm_num [reset], by norm_num [reset], by norm_num [reset],
    by norm_num [reset], by norm_num [reset], by norm_num [reset], ?_⟩
  intro w hw
  simp [reset] at hw

theorem onHoldStart_cases (s : SimState) :
    onHoldStart s = { reset s with holding := true } ∨
    onHoldStart s = { s with holding := true } := by
  unfold onHoldStart
  by_cases hc : s.status = Status.READY ∨ s.status = Status.DOWN <;> simp [hc]

theorem onHoldEnd_eq (s : SimState) :
    onHoldEnd s =
      if s.alive then
        { s with holding := false, charge := 0,
                 dash := clamp (s.dash + (0.35 + s.charge * 1.2)) 0 1.6 }
      else { s with holding := false, charge := 0 } := by
  unfold onHoldEnd
  by_cases ha : s.alive <;> simp [ha]

theorem onHoldStart_inv (s : SimState) (h : Inv s) : Inv (onHoldStart s) := by
  rcases onHoldStart_cases s with hc | hc <;> rw [hc]
  · exact reset_inv s
  · exact h

theorem onHoldEnd_inv (s : SimState) (h : Inv s) : Inv (onHoldEnd s) := by
  obtain ⟨h1, h2, h3, h4, h5, h6, h7⟩ := h
  rw [onHoldEnd_eq]
  split_ifs with ha
  · exact ⟨h1, h2, by norm_num, by norm_num, le_clamp _ _ _,
      le_trans (clamp_le _ (by norm_num)) (by norm_num), h7⟩
  · exact ⟨h1, h2, by norm_num, by norm_num, h5, h6, h7⟩

theorem initState_inv (st : StoredBest) : Inv (initState st) := by
  refine ⟨by norm_num [initState], by norm_num [initState], by norm_num [initState],
    by norm_num [initState], by norm_num [initState], by norm_num [initState], ?_⟩
  intro w hw
  simp [initState] at hw

theorem tick_inv (s : SimState) (inp : TickInput) (h : Inv s) : Inv (tick s inp) := by
  by_cases hL : s.status = Status.LIVE
  · obtain ⟨-, -, -, -, hd0, hd2, hw⟩ := h
    refine ⟨?_, ?_, ?_, ?_, ?_, ?_, ?_⟩
    · rw [tick_px_eq s inp hL]; exact (tickPhysics_px s inp).1
    · rw [tick_px_eq s inp hL]; exact (tickPhysics_px s inp).2
    · rw [tick_charge_eq s inp hL]; exact (tickPhysics_charge s inp).1
    · rw [tick_charge_eq s inp hL]; exact (tickPhysics_charge s inp).2
    · rw [tick_dash_eq s inp hL]; exact (tickPhysics_dash s inp hd0 hd2).1
    · rw [tick_dash_eq s inp hL]; exact (tickPhysics_dash s inp hd0 hd2).2
    · intro w hwm
      obtain ⟨v, hv | hv, rfl⟩ := tick_waves_mem hL hwm
      · exact moveWave_waveOk (hw v hv)
      · exact moveWave_waveOk hv
  · rw [tick_not_live s inp hL]; exact h

theorem tick_dash_cap (s : SimState) (inp : TickInput) (hdt : 0 ≤ inp.rawDt)
    (h0 : 0 ≤ s.dash) (h16 : s.dash ≤ 1.6) :
    0 ≤ (tick s inp).dash ∧ (tick s inp).dash ≤ 1.6 := by
  by_cases hL : s.status = Status.LIVE
  · rw [tick_dash_eq s inp hL]
    exact tickPhysics_dash_cap s inp hdt h0 h16
  · rw [tick_not_live s inp hL]; exact ⟨h0, h16⟩

theorem onHoldStart_dash (s : SimState) (h0 : 0 ≤ s.dash) (h16 : s.dash ≤ 1.6) :
    0 ≤ (onHoldStart s).dash ∧ (onHoldStart s).dash ≤ 1.6 := by
  rcases onHoldStart_cases s with hc | hc <;> rw [hc]
  · constructor <;> norm_num [reset]
  · exact ⟨h0, h16⟩

theorem onHoldEnd_dash (s : SimState) (h0 : 0 ≤ s.dash) (h16 : s.dash ≤ 1.6) :
    0 ≤ (onHoldEnd s).dash ∧ (onHoldEnd s).dash ≤ 1.6 := by
  rw [onHoldEnd_eq]
  split_ifs with ha
  · exact ⟨le_clamp _ _ _, clamp_le _ (by norm_num)⟩
  · exact ⟨h0, h16⟩

theorem hitUpdate_alive_status (s : SimState) (w : Wave) :
    (hitUpdate s w).alive = s.alive ∧ (hitUpdate s w).status = s.status := by
  simp only [hitUpdate]
  split_ifs <;> exact ⟨rfl, rfl⟩

theorem resolveWave_alive_status (dt : ℚ) (s : SimState) (w : Wave) :
    ((resolveWave dt s w).alive = s.alive ∧ (resolveWave dt s w).status = s.status) ∨
    ((resolveWave dt s w).alive = false ∧ (resolveWave dt s w).status = Status.DOWN) := by
  unfold resolveWave
  split_ifs with h1 h2
  · exact Or.inl (hitUpdate_alive_status s w)
  · exact Or.inr ⟨rfl, rfl⟩
  · exact Or.inl ⟨rfl, rfl⟩

theorem foldResolve_dead (dt : ℚ) (ws : List Wave) (s : SimState)
    (ha : s.alive = false) (hs : s.status = Status.DOWN) :
    (ws.foldl (resolveWave dt) s).alive = false ∧
    (ws.foldl (resolveWave dt) s).status = Status.DOWN := by
  induction ws generalizing s with
  | nil => exact ⟨ha, hs⟩
  | cons w ws ih =>
    simp only [List.foldl_cons]
    rcases resolveWave_alive_status dt s w with ⟨h1, h2⟩ | ⟨h1, h2⟩
    · exact ih _ (h1.trans ha) (h2.trans hs)
    · exact ih _ h1 h2

theorem foldResolve_down (dt : ℚ) (ws : List Wave) (s : SimState)
    (h : ∃ w ∈ ws, crossing dt w = true ∧ insideGap s.px w = false) :
    (ws.foldl (resolveWave dt) s).alive = false ∧
    (ws.foldl (resolveWave dt) s).status = Status.DOWN := by
  induction ws generalizing s with
  | nil => simp at h
  | cons w ws ih =>
    simp only [List.foldl_cons]
    rcases h with ⟨v, hv, hcr, hout⟩
    rcases List.mem_cons.1 hv with rfl | hv
    · have hmiss : resolveWave dt s v = { s with alive := false, status := Status.DOWN } := by
        unfold resolveWave
        rw [if_pos hcr, if_neg (by simp [hout])]
      rw [hmiss]
      exact foldResolve_dead dt ws _ rfl rfl
    · apply ih
      refine ⟨v, hv, hcr, ?_⟩
      rw [(resolveWave_frame dt s w).1]
      exact hout

theorem setDown_self {s : SimState} (ha : s.alive = false) (hs : s.status = Status.DOWN) :
    ({ s with alive := false, status := Status.DOWN } : SimState) = s := by
  cases s
  simp_all

theorem foldResolve_firstMiss (dt : ℚ) (ws : List Wave) (s : SimState)
    (h : s.status = Status.DOWN → s.alive = false) :
    ws.foldl (resolveWave dt) s = ws.foldl (resolveWaveFirstMiss dt) s := by
  induction ws generalizing s with
  | nil => rfl
  | cons w ws ih =>
    simp only [List.foldl_cons]
    have hstep : resolveWave dt s w = resolveWaveFirstMiss dt s w ∧
        ((resolveWave dt s w).status = Status.DOWN → (resolveWave dt s w).alive = false) := by
      unfold resolveWave resolveWaveFirstMiss
      split_ifs with h1 h2 h3
      · refine ⟨rfl, fun hd => ?_⟩
        rw [(hitUpdate_alive_status s w).1]
        exact h ((hitUpdate_alive_status s w).2.symm.trans hd)
      · exact ⟨setDown_self (h h3) h3, fun _ => rfl⟩
      · exact ⟨rfl, fun _ => rfl⟩
      · exact ⟨rfl, h⟩
    rw [← hstep.1]
    exact ih _ hstep.2

theorem waveAfter_append (w : Wave) (p q : List ℚ) :
    waveAfter w (p ++ q) = waveAfter (waveAfter w p) q := by
  unfold waveAfter
  rw [List.foldl_append]

theorem waveAfter_speed (w : Wave) (dts : List ℚ) :
    (waveAfter w dts).speed = w.speed := by
  induction dts generalizing w with
  | nil => rfl
  | cons d dts ih => exact (ih (moveWave d w)).trans rfl

theorem waveAfter_y_le (dts : List ℚ) :
    ∀ w : Wave, 0 ≤ w.speed → (∀ x ∈ dts, 0 ≤ x) → (waveAfter w dts).y ≤ w.y := by
  induction dts with
  | nil => intro w _ _; exact le_refl _
  | cons d dts ih =>
    intro w hsp h
    have h2 : (moveWave d w).y ≤ w.y := by
      have hm := mul_nonneg (h d (List.mem_cons_self d dts)) hsp
      unfold moveWave
      dsimp only
      linarith
    have h1 := ih (moveWave d w) hsp (fun x hx => h x (List.mem_cons_of_mem d hx))
    exact le_trans h1 h2

/-- C1: in every reachable simulation state — under every sequence of ticks
and input events — the clamped ranges hold: position in [0.06, 0.94], charge
in [0, 1], dash in [0, 2], and every wave of the field has gapW in
[0.12, 0.26] and speed in [0.35, 1.15]. -/
theorem reachable_clamped {s : SimState} (h : Reachable s) : Inv s := by
  induction h with
  | init st => exact initState_inv st
  | stepTick inp hdt _ ih => exact tick_inv _ inp ih
  | stepHoldStart _ ih => exact onHoldStart_inv _ ih
  | stepHoldEnd _ ih => exact onHoldEnd_inv _ ih

/-- C1 witness: the invariant at a concrete reachable state, one hold-start
after mounting with an empty store. -/
theorem reachable_clamped_witness : Inv (onHoldStart (initState StoredBest.missing)) :=
  reachable_clamped (Reachable.stepHoldStart (Reachable.init StoredBest.missing))

/-- C9: in every reachable state dash lies in [0, 1.6], strictly tighter
than the declared [0, 2] range: onHoldEnd clamps additions at 1.6, the
per-tick decay only lowers dash, and reset zeroes it. -/
theorem dash_le_cap {s : SimState} (h : Reachable s) :
    0 ≤ s.dash ∧ s.dash ≤ 1.6 := by
  induction h with
  | init st => constructor <;> norm_num [initState]
  | stepTick inp hdt _ ih => exact tick_dash_cap _ inp hdt ih.1 ih.2
  | stepHoldStart _ ih => exact onHoldStart_dash _ ih.1 ih.2
  | stepHoldEnd _ ih => exact onHoldEnd_dash _ ih.1 ih.2

/-- C9 witness: the dash cap at a concrete reachable state, one hold-end
after mounting with an empty store. -/
theorem dash_le_cap_witness :
    0 ≤ (onHoldEnd (initState StoredBest.missing)).dash ∧
    (onHoldEnd (initState StoredBest.missing)).dash ≤ 1.6 :=
  dash_le_cap (Reachable.stepHoldEnd (Reachable.init StoredBest.missing))

/-- C6: reset, from any state, zeroes score, streak, hits, nearMiss, dash
and charge, revives the player at position 0.5 with an empty field, sets
status LIVE, and keeps best. -/
theorem reset_restores (s : SimState) :
    (reset s).score = 0 ∧ (reset s).streak = 0 ∧ (reset s).hits = 0 ∧
    (reset s).nearMiss = 0 ∧ (reset s).dash = 0 ∧ (reset s).charge = 0 ∧
    (reset s).alive = true ∧ (reset s).px = 0.5 ∧ (reset s).waves = [] ∧
    (reset s).status = Status.LIVE ∧ (reset s).best = s.best :=
  ⟨rfl, rfl, rfl, rfl, rfl, rfl, rfl, rfl, rfl, rfl, rfl⟩

/-- C10: reset also zeroes the velocity and restarts the wave id counter at
1 while leaving the holding flag untouched, so the post-reset state is fully
determined; the first wave spawned after any reset carries id 1, so wave ids
repeat across runs. -/
theorem reset_full_state (s : SimState) (r : ℚ) :
    reset s =
      { px := 0.5, vel := 0, dash := 0, charge := 0, alive := true,
        waves := [], waveId := 1, score := 0, best := s.best,
        streak := 0, hits := 0, nearMiss := 0, holding := s.holding,
        status := Status.LIVE } ∧
    (spawnWave (reset s) r).waves.map Wave.id = [1] := by
  constructor
  · rfl
  · simp [spawnWave, reset]

/-- C8: persistence failures never propagate — an unavailable store, a
missing key and a non-finitely parsed value all load best as 0, the
simulation state of a tick is identical whether the best write succeeds or
fails, and a failed write leaves nothing durable. -/
theorem persistence_swallowed :
    (initState StoredBest.missing).best = 0 ∧
    (initState StoredBest.nonFinite).best = 0 ∧
    (initState StoredBest.unavailable).best = 0 ∧
    (∀ (s : SimState) (inp : TickInput) (writeOk : Bool),
      (tickWithPersist s inp writeOk).1 = tick s inp) ∧
    (∀ (s : SimState) (inp : TickInput), (tickWithPersist s inp false).2 = none) := by
  refine ⟨rfl, rfl, rfl, fun s inp writeOk => rfl, fun s inp => ?_⟩
  unfold tickWithPersist
  cases h : (tickCore s inp).2 <;> simp [h]

/-- C4: best never decreases under any operation — tick, hold-start,
hold-end, or reset (which zeroes score but not best) — and a LIVE tick sets
best to exactly the maximum of the old best and the new score. -/
theorem best_monotone (s : SimState) (inp : TickInput) :
    s.best ≤ (tick s inp).best ∧
    s.best ≤ (onHoldStart s).best ∧
    s.best ≤ (onHoldEnd s).best ∧
    s.best ≤ (reset s).best ∧
    (s.status = Status.LIVE → (tick s inp).best = max s.best (tick s inp).score) := by
  have hmax : s.status = Status.LIVE →
      (tick s inp).best = max s.best (tick s inp).score := by
    intro hL
    rw [tick_live s inp hL, tickBest_best, (tickBest_frame _).2.2.2.2.2.1,
      (tickPrune_frame _).2.2.2.2.1, tickResolve_eq, (foldResolve_frame _ _ _).2.2.2.2,
      tickField_best]
  refine ⟨?_, ?_, ?_, ?_, hmax⟩
  · by_cases hL : s.status = Status.LIVE
    · rw [hmax hL]; exact le_max_left _ _
    · rw [tick_not_live s inp hL]
  · rcases onHoldStart_cases s with hc | hc <;> rw [hc] <;> exact le_refl _
  · rw [onHoldEnd_eq]; split_ifs <;> exact le_refl _
  · exact le_refl _

/-- C4 witness: the max law of the best update at a concrete LIVE state and
tick input. -/
theorem best_monotone_witness :
    (tick demoIdle demoInput).best = max demoIdle.best (tick demoIdle demoInput).score :=
  (best_monotone demoIdle demoInput).2.2.2.2 rfl

/-- C5: the crossing check is edge-triggered — once it fires for a wave at
some tick, it can never fire again for that wave at any later tick, for
every sequence of per-tick deltas (nonnegative after the crossing) and
every nonnegative speed, so no wave is scored or collision-resolved twice. -/
theorem wave_crosses_at_most_once (w : Wave) (p q : List ℚ) (d e : ℚ)
    (hsp : 0 ≤ w.speed) (hq : ∀ x ∈ q, 0 ≤ x)
    (h1 : crossesOn w p d = true) : crossesOn w (p ++ d :: q) e = false := by
  have hm : 0 ≤ (moveWave d (waveAfter w p)).speed := by
    show 0 ≤ (waveAfter w p).speed
    rw [waveAfter_speed]
    exact hsp
  have hyv : (waveAfter w (p ++ d :: q)).y ≤ (moveWave d (waveAfter w p)).y := by
    rw [waveAfter_append]
    exact waveAfter_y_le q (moveWave d (waveAfter w p)) hm hq
  unfold crossesOn crossing at h1 ⊢
  simp only [decide_eq_true_eq] at h1
  simp only [decide_eq_false_iff_not]
  intro hc
  obtain ⟨hc1, hc2⟩ := hc
  obtain ⟨h11, h12⟩ := h1
  simp only [moveWave] at h11 h12 hc1 hc2 hyv
  linarith

/-- C5 witness: a concrete wave crossing on a 33 ms tick and then not
crossing again on the next 10 ms tick. -/
theorem wave_crosses_at_most_once_witness :
    crossesOn demoWave [] 0.033 = true ∧
    crossesOn demoWave ([] ++ 0.033 :: [0]) 0.01 = false := by
  constructor
  · norm_num [crossesOn, crossing, waveAfter, moveWave, demoWave]
  · exact wave_crosses_at_most_once demoWave [] [0] 0.033 0.01
      (by norm_num [demoWave]) (by norm_num)
      (by norm_num [crossesOn, crossing, waveAfter, moveWave, demoWave])

/-- C2: when a LIVE tick has at least one crossing wave outside the gap, the
session transitions to DOWN with the player no longer alive; the tick is
extensionally the tick that resolves only the first terminal MISS of the
batch — further misses of the same batch change nothing and nothing is
double-counted — and every later tick leaves the DOWN state untouched. -/
theorem miss_resolved_once (s : SimState) (inp : TickInput)
    (hL : s.status = Status.LIVE)
    (hm : ∃ w ∈ (tickField s inp).waves,
        crossing (min 0.033 inp.rawDt) w = true ∧
        insideGap (tickField s inp).px w = false) :
    (tick s inp).alive = false ∧ (tick s inp).status = Status.DOWN ∧
    tick s inp = tickFirstMiss s inp ∧
    ∀ inp2 : TickInput, tick (tick s inp) inp2 = tick s inp := by
  have hdown :=
    foldResolve_down (min 0.033 inp.rawDt) (tickField s inp).waves (tickField s inp) hm
  have halive : (tick s inp).alive = false := by
    rw [tick_live s inp hL, (tickBest_frame _).2.2.2.2.2.2,
      (tickPrune_frame _).2.2.2.2.2.2, tickResolve_eq]
    exact hdown.1
  have hstat : (tick s inp).status = Status.DOWN := by
    rw [tick_live s inp hL, (tickBest_frame _).2.2.2.1, (tickPrune_frame _).2.2.2.1,
      tickResolve_eq]
    exact hdown.2
  refine ⟨halive, hstat, ?_, ?_⟩
  · rw [tick_live s inp hL]
    unfold tickFirstMiss
    rw [if_pos hL, tickResolve_eq,
      foldResolve_firstMiss (min 0.033 inp.rawDt) (tickField s inp).waves
        (tickField s inp)
        (by
          intro hcon
          rw [tickField_status s inp, hL] at hcon
          exact absurd hcon (by decide))]
  · intro inp2
    refine tick_not_live _ inp2 ?_
    rw [hstat]
    decide

/-- C2 witness: a concrete LIVE state whose wave crosses outside the gap;
the tick lands on DOWN with the player dead. -/
theorem miss_resolved_once_witness :
    (tick demoMiss demoInput).alive = false ∧
    (tick demoMiss demoInput).status = Status.DOWN := by
  have h := miss_resolved_once demoMiss demoInput rfl (by
    refine ⟨{ id := 1, y := 0.215, gapX := 0.9, gapW := 0.1, speed := 1 }, ?_, ?_, ?_⟩
    · norm_num [tickField, tickMove, tickSpawn, tickSpawnB, tickPhysics, spawnWave,
        moveWave, clamp, demoMiss, demoInput]
    · norm_num [crossing, demoInput]
    · norm_num [insideGap, gapLeft, gapRight, tickField, tickMove, tickSpawn,
        tickSpawnB, tickPhysics, spawnWave, moveWave, clamp, demoMiss, demoInput])
  exact ⟨h.1, h.2.1⟩

/-- C3 counterexample: from a concrete state that is not holding (alive,
zero charge, zero dash), a second onHoldEnd grants a further 0.35 base dash
impulse, so two calls do not equal one call. -/
theorem holdEnd_not_idempotent :
    demoIdle.holding = false ∧ onHoldEnd (onHoldEnd demoIdle) ≠ onHoldEnd demoIdle := by
  constructor
  · rfl
  · simp only [onHoldEnd, demoIdle]
    norm_num [SimState.mk.injEq, clamp]

/-- C3 amended: while not holding, a repeated onHoldEnd is idempotent on the
holding flag and the charge (and on the whole state when the player is not
alive), but while alive each further call adds another base impulse of 0.35
to dash, clamped to [0, 1.6] — it changes nothing else. -/
theorem holdEnd_second_release (s : SimState) (h : s.holding = false) :
    (onHoldEnd (onHoldEnd s)).holding = (onHoldEnd s).holding ∧
    (onHoldEnd (onHoldEnd s)).charge = (onHoldEnd s).charge ∧
    (s.alive = false → onHoldEnd (onHoldEnd s) = onHoldEnd s) ∧
    (s.alive = true →
      onHoldEnd (onHoldEnd s) =
        { onHoldEnd s with dash := clamp ((onHoldEnd s).dash + 0.35) 0 1.6 }) := by
  by_cases ha : s.alive
  · have e1 : onHoldEnd s =
        { s with holding := false, charge := 0,
                 dash := clamp (s.dash + (0.35 + s.charge * 1.2)) 0 1.6 } := by
      rw [onHoldEnd_eq, if_pos ha]
    have e2 : onHoldEnd (onHoldEnd s) =
        { s with holding := false, charge := 0,
                 dash := clamp (clamp (s.dash + (0.35 + s.charge * 1.2)) 0 1.6 +
                   (0.35 + 0 * 1.2)) 0 1.6 } := by
      rw [e1, onHoldEnd_eq, if_pos ha]
    refine ⟨by rw [e2, e1], by rw [e2, e1], ?_, ?_⟩
    · intro hf
      rw [ha] at hf
      cases hf
    · intro _
      rw [e2, e1]
      norm_num [SimState.mk.injEq]
  · have hfa : s.alive = false := by
      cases hv : s.alive
      · rfl
      · exact absurd hv ha
    have e1 : onHoldEnd s = { s with holding := false, charge := 0 } := by
      rw [onHoldEnd_eq, if_neg ha]
    have e2 : onHoldEnd (onHoldEnd s) = { s with holding := false, charge := 0 } := by
      rw [e1, onHoldEnd_eq, if_neg ha]
    exact ⟨by rw [e2, e1], by rw [e2, e1], fun _ => by rw [e2, e1],
      fun hT => absurd hT ha⟩

/-- C3 amended witness: the second release at a concrete idle alive state
adds exactly the clamped 0.35 base impulse. -/
theorem holdEnd_second_release_witness :
    onHoldEnd (onHoldEnd demoIdle) =
      { onHoldEnd demoIdle with dash := clamp ((onHoldEnd demoIdle).dash + 0.35) 0 1.6 } :=
  (holdEnd_second_release demoIdle rfl).2.2.2 rfl

/-- C7: with a wave at gapCenter 0.5 and gapWidth 0.2 crossing while the
player sits at 0.41 with zero score and streak, the outcome is a HIT with a
near miss: the score rises by exactly 27 (18 base plus 9 near-miss bonus,
zero streak bonus), the streak becomes 1 and the near-miss counter becomes
1. -/
theorem near_miss_scenario :
    demoHit.score = 0 ∧ demoHit.streak = 0 ∧ demoHit.px = 0.41 ∧
    (tick demoHit demoInput).score = 27 ∧ (tick demoHit demoInput).streak = 1 ∧
    (tick demoHit demoInput).nearMiss = 1 ∧ (tick demoHit demoInput).hits = 1 := by
  norm_num [tick, tickCore, tickField, tickBest, tickPrune, tickResolve,
    tickMove, tickSpawn, tickSpawnB, tickPhysics, spawnWave, moveWave,
    resolveWave, hitUpdate, crossing, insideGap, gapLeft, gapRight, clamp,
    demoHit, demoInput]

end SanctuarySprint
